import Mathlib

/-!
# Verification of `buttery` (src/src/lib.rs)

A shallow embedding of the `buttery` library: exponentially smoothed
transform components and the `Scaffold` chain that composes the smoothed
attributes into one transformation matrix.

Modelling conventions:
* Rust `f32` values are modelled as real numbers (idealised arithmetic).
* glam's `Mat4` is modelled as a 4×4 real matrix, glam's `Quat` as
  `Quaternion ℝ` from Mathlib.
* glam's `Quat::slerp` belongs to the external linear-algebra collaborator
  (the spec treats it as an opaque capability), so `Rotate` takes the
  slerp function as a parameter; theorems about the rotational variant
  assume only the endpoint laws the collaborator guarantees.
* `&mut` state is made explicit: `TransformComponent::drive` returns the
  produced attribute together with the updated component, and a chain's
  `drive` returns the matrix together with the final states of every
  borrowed component.
-/

namespace Buttery

/-- glam `Mat4`, modelled as a 4×4 real matrix. -/
abbrev Mat4 : Type := Matrix (Fin 4) (Fin 4) ℝ

/-- glam `Quat`, modelled as a real quaternion. -/
abbrev Quat : Type := Quaternion ℝ

/-- glam `Quat::normalize`: scale the quaternion by the inverse of its
length. -/
noncomputable def Quat.normalize (q : Quat) : Quat := ‖q‖⁻¹ • q

/-- The `Smoothed` trait from the source: an attribute type together with
the pure interpolation rule `drive target current percent`.  Rust's
trait dictionary is modelled as a structure value. -/
structure Smoothed where
  Attribute : Type
  drive : Attribute → Attribute → ℝ → Attribute

/-- `impl Smoothed for Translate<T>`: linear interpolation
`current + (target - current) * percent`, for any attribute type with
the `Add`, `Sub` and `Mul<f32>` capabilities the source requires. -/
@[reducible] def Translate (α : Type) [Add α] [Sub α] [HMul α ℝ α] : Smoothed where
  Attribute := α
  drive target current percent := current + (target - current) * percent

/-- `impl Smoothed for Rotate`: quaternion interpolation
`current.slerp(target, percent).normalize()`.  The slerp operation comes
from the external collaborator and is taken as a parameter. -/
@[reducible] noncomputable def Rotate (slerp : Quat → Quat → ℝ → Quat) : Smoothed where
  Attribute := Quat
  drive target current percent := Quat.normalize (slerp current target percent)

/-- `TransformComponent<T>`: the stateful entity holding the retention
coefficient, the current value and the target value. -/
@[ext] structure TransformComponent (T : Smoothed) where
  retention : ℝ
  current : T.Attribute
  target : T.Attribute

/-- `TransformComponent::drive`: computes
`percent = 1.0 - self.retention.powf(delta_time)`, delegates to
`T::drive(self.target, self.current, percent)`, stores the result in
`self.current` and returns it.  The updated component is returned as the
second projection (the embedding of the in-place mutation). -/
noncomputable def TransformComponent.drive {T : Smoothed}
    (self : TransformComponent T) (delta_time : ℝ) :
    T.Attribute × TransformComponent T :=
  let percent := 1 - self.retention ^ delta_time
  let new_current := T.drive self.target self.current percent
  (new_current, { self with current := new_current })

/-- `TransformComponent::hard_set`: sets both `target` and `current` to
the requested value. -/
def TransformComponent.hard_set {T : Smoothed}
    (self : TransformComponent T) (target : T.Attribute) :
    TransformComponent T :=
  { self with target := target, current := target }

/-- `TransformComponent::new`: an explicit retention and initial value,
with `current = target = initial`. -/
def TransformComponent.new (T : Smoothed) (retention : ℝ)
    (initial : T.Attribute) : TransformComponent T :=
  { retention := retention, current := initial, target := initial }

/-- `First<T, F>`: the head chain node produced by `begin`, recording the
borrowed component and the projection closure. -/
structure First (T : Smoothed) where
  component : TransformComponent T
  f : T.Attribute → Mat4

/-- `Composition<T, F, I>`: a link node recording the borrowed component,
the projection closure and the owned predecessor chain. -/
structure Composition (T : Smoothed) (I : Type) where
  component : TransformComponent T
  f : T.Attribute → Mat4
  inner : I

/-- `TransformComponent::begin`: starts a chain by recording the
component together with its projection function. -/
def TransformComponent.begin {T : Smoothed} (self : TransformComponent T)
    (f : T.Attribute → Mat4) : First T :=
  { component := self, f := f }

/-- The `Scaffold` trait: a chain type with a finalising `drive`.
`Borrowed` is the type of the final states of all components the chain
borrows — the embedding of the write-back through `&mut`. -/
class Scaffold (S : Type) where
  Borrowed : Type
  drive : S → ℝ → Mat4 × Borrowed

/-- `Scaffold::and_then`: queues another transformation after the
previous one(s), recording the next component, its projection and the
consumed predecessor chain. -/
def Scaffold.and_then {S : Type} [Scaffold S] {T : Smoothed} (self : S)
    (next : TransformComponent T) (f : T.Attribute → Mat4) :
    Composition T S :=
  { component := next, f := f, inner := self }

/-- `impl Scaffold for First`: drives the one component and applies the
stored projection. -/
noncomputable instance instScaffoldFirst (T : Smoothed) : Scaffold (First T) where
  Borrowed := TransformComponent T
  drive self time :=
    let attrib := self.component.drive time
    (self.f attrib.1, attrib.2)

/-- `impl Scaffold for Composition`: finalises the predecessor chain
first, then drives its own component and multiplies its matrix on the
left of the predecessor's. -/
noncomputable instance instScaffoldComposition (T : Smoothed) (I : Type)
    [Scaffold I] : Scaffold (Composition T I) where
  Borrowed := Scaffold.Borrowed I × TransformComponent T
  drive self time :=
    let inner := Scaffold.drive self.inner time
    let attrib := self.component.drive time
    (self.f attrib.1 * inner.1, (inner.2, attrib.2))

/-! ## Helper lemmas -/

/-- Unfolding lemma for `TransformComponent.drive`. -/
theorem drive_def {T : Smoothed} (self : TransformComponent T) (dt : ℝ) :
    self.drive dt
      = (T.drive self.target self.current (1 - self.retention ^ dt),
         { self with
            current := T.drive self.target self.current (1 - self.retention ^ dt) }) :=
  rfl

/-- The linear rule, unfolded. -/
theorem Translate_drive {α : Type} [Add α] [Sub α] [HMul α ℝ α]
    (target current : α) (percent : ℝ) :
    (Translate α).drive target current percent
      = current + (target - current) * percent :=
  rfl

/-- The rotational rule, unfolded. -/
theorem Rotate_drive (slerp : Quat → Quat → ℝ → Quat)
    (target current : Quat) (percent : ℝ) :
    (Rotate slerp).drive target current percent
      = Quat.normalize (slerp current target percent) :=
  rfl

/-- Normalising a nonzero quaternion yields a unit quaternion. -/
theorem Quat.norm_normalize (q : Quat) (h : q ≠ 0) :
    ‖Quat.normalize q‖ = 1 :=
  norm_smul_inv_norm (𝕜 := ℝ) h

/-- Normalising a unit quaternion is the identity. -/
theorem Quat.normalize_of_norm_one (q : Quat) (h : ‖q‖ = 1) :
    Quat.normalize q = q := by
  rw [Quat.normalize, h, inv_one, one_smul]

/-! ## Claims -/

/-- C2: for every component, `drive(elapsed_seconds)` computes
`percent = 1 - retention ^ elapsed_seconds`, passes
`(target, current, percent)` to the smoothing capability, stores the
capability's result in `current`, and returns that same result. -/
theorem drive_computes_percent_delegates_and_stores (T : Smoothed)
    (self : TransformComponent T) (dt : ℝ) :
    (self.drive dt).1
        = T.drive self.target self.current (1 - self.retention ^ dt)
      ∧ ((self.drive dt).2).current = (self.drive dt).1
      ∧ (self.drive dt).2 = { self with current := (self.drive dt).1 } :=
  ⟨rfl, rfl, rfl⟩

/-- C3: `drive` mutates only `current`; the `target` and `retention`
fields are unchanged after the call. -/
theorem drive_preserves_target_and_retention (T : Smoothed)
    (self : TransformComponent T) (dt : ℝ) :
    ((self.drive dt).2).target = self.target
      ∧ ((self.drive dt).2).retention = self.retention :=
  ⟨rfl, rfl⟩

/-- C10: chain construction performs no mutation: `begin` and `and_then`
only record the component, the projection and the predecessor, leaving
every referenced component's `retention`, `current` and `target` fields
unchanged. -/
theorem begin_and_then_no_mutation (T U : Smoothed)
    (tc : TransformComponent T) (f : T.Attribute → Mat4)
    (S : Type) [Scaffold S] (s : S) (next : TransformComponent U)
    (g : U.Attribute → Mat4) :
    ((tc.begin f).component = tc
        ∧ (tc.begin f).component.retention = tc.retention
        ∧ (tc.begin f).component.current = tc.current
        ∧ (tc.begin f).component.target = tc.target
        ∧ (tc.begin f).f = f)
      ∧ ((Scaffold.and_then s next g).component = next
        ∧ (Scaffold.and_then s next g).component.retention = next.retention
        ∧ (Scaffold.and_then s next g).component.current = next.current
        ∧ (Scaffold.and_then s next g).component.target = next.target
        ∧ (Scaffold.and_then s next g).f = g
        ∧ (Scaffold.and_then s next g).inner = s) :=
  ⟨⟨rfl, rfl, rfl, rfl, rfl⟩, ⟨rfl, rfl, rfl, rfl, rfl, rfl⟩⟩

/-- C1: finalising `A.begin(fA).and_then(B, fB).and_then(C, fC)` with
elapsed time `t` returns the matrix product
`fC(C.drive(t)) * fB(B.drive(t)) * fA(A.drive(t))` of the independently
driven components, and each component ends in the state of exactly one
`drive` call with that same `t`. -/
theorem chain_drive_eq_product (T₁ T₂ T₃ : Smoothed)
    (A : TransformComponent T₁) (B : TransformComponent T₂)
    (C : TransformComponent T₃)
    (fA : T₁.Attribute → Mat4) (fB : T₂.Attribute → Mat4)
    (fC : T₃.Attribute → Mat4) (t : ℝ) :
    Scaffold.drive (Scaffold.and_then (Scaffold.and_then (A.begin fA) B fB) C fC) t
      = (fC (C.drive t).1 * fB (B.drive t).1 * fA (A.drive t).1,
         (((A.drive t).2, (B.drive t).2), (C.drive t).2)) := by
  have h : Scaffold.drive
        (Scaffold.and_then (Scaffold.and_then (A.begin fA) B fB) C fC) t
      = (fC (C.drive t).1 * (fB (B.drive t).1 * fA (A.drive t).1),
         (((A.drive t).2, (B.drive t).2), (C.drive t).2)) := rfl
  rw [h, mul_assoc]

/-! ## Concrete sample values used by the witnesses -/

/-- A slerp capability that returns its first argument; it satisfies the
collaborator's endpoint laws at equal endpoints. -/
def slerpConst : Quat → Quat → ℝ → Quat := fun c _ _ => c

/-- A sample linear component. -/
noncomputable def sampleL : TransformComponent (Translate ℝ) := ⟨1/2, 4, 7⟩

/-- A sample rotational component holding the identity quaternion. -/
noncomputable def sampleR : TransformComponent (Rotate slerpConst) := ⟨1/2, 1, 1⟩

/-- A sample linear component with distinct current and target. -/
noncomputable def sampleHalf : TransformComponent (Translate ℝ) := ⟨1/2, 0, 1⟩

/-- A sample component with the degenerate retention 1. -/
noncomputable def sampleFrozen : TransformComponent (Translate ℝ) := ⟨1, 4, 7⟩

/-- A sample component with the degenerate retention 0. -/
noncomputable def sampleSnap : TransformComponent (Translate ℝ) := ⟨0, 4, 7⟩

/-- C4: `hard_set(v)` sets both `current` and `target` to `v`; afterwards
any `drive(d)` returns exactly `v` and leaves `current = target = v`
(for the rotational variant under the collaborator's equal-endpoint slerp
law and the unit-quaternion data invariant). -/
theorem hard_set_collapses_and_drive_returns_value
    (T : Smoothed) (c0 : TransformComponent T) (v0 : T.Attribute)
    (cL : TransformComponent (Translate ℝ)) (vL d : ℝ)
    (slerp : Quat → Quat → ℝ → Quat)
    (cR : TransformComponent (Rotate slerp)) (vR : Quat) (dR : ℝ)
    (hs : ∀ p : ℝ, slerp vR vR p = vR) (hv : ‖vR‖ = 1) :
    ((c0.hard_set v0).current = v0 ∧ (c0.hard_set v0).target = v0)
      ∧ (((cL.hard_set vL).drive d).1 = vL
        ∧ (((cL.hard_set vL).drive d).2).current = vL
        ∧ (((cL.hard_set vL).drive d).2).target = vL)
      ∧ (((cR.hard_set vR).drive dR).1 = vR
        ∧ (((cR.hard_set vR).drive dR).2).current = vR
        ∧ (((cR.hard_set vR).drive dR).2).target = vR) := by
  refine ⟨⟨rfl, rfl⟩, ⟨?_, ?_, rfl⟩, ⟨?_, ?_, rfl⟩⟩ <;>
    simp [drive_def, TransformComponent.hard_set, Translate_drive, Rotate_drive,
      hs, Quat.normalize_of_norm_one _ hv]

/-- Witness for C4 at concrete inputs. -/
theorem hard_set_collapses_and_drive_returns_value_witness :
    ((sampleL.hard_set 5).current = 5 ∧ (sampleL.hard_set 5).target = 5)
      ∧ (((sampleL.hard_set 5).drive 9).1 = 5
        ∧ (((sampleL.hard_set 5).drive 9).2).current = 5
        ∧ (((sampleL.hard_set 5).drive 9).2).target = 5)
      ∧ (((sampleR.hard_set 1).drive 2).1 = 1
        ∧ (((sampleR.hard_set 1).drive 2).2).current = 1
        ∧ (((sampleR.hard_set 1).drive 2).2).target = 1) :=
  hard_set_collapses_and_drive_returns_value (Translate ℝ) sampleL 5 sampleL 5 9
    slerpConst sampleR 1 2 (fun _ => rfl) norm_one

/-- C5: `drive(0)` computes `percent = 0`, leaves `current` unchanged and
returns the prior `current`, for the linear and the rotational variant
alike (the latter under the collaborator's slerp endpoint law and the
unit-quaternion data invariant). -/
theorem drive_zero_is_noop (T : Smoothed) (c : TransformComponent T)
    (cL : TransformComponent (Translate ℝ))
    (slerp : Quat → Quat → ℝ → Quat)
    (cR : TransformComponent (Rotate slerp))
    (h0 : slerp cR.current cR.target 0 = cR.current)
    (h1 : ‖cR.current‖ = 1) :
    1 - c.retention ^ (0 : ℝ) = 0
      ∧ (cL.drive 0).1 = cL.current
      ∧ ((cL.drive 0).2).current = cL.current
      ∧ (cR.drive 0).1 = cR.current
      ∧ ((cR.drive 0).2).current = cR.current := by
  refine ⟨by rw [Real.rpow_zero]; ring, ?_, ?_, ?_, ?_⟩ <;>
    simp [drive_def, Translate_drive, Rotate_drive, Real.rpow_zero, h0,
      Quat.normalize_of_norm_one _ h1]

/-- Witness for C5 at concrete inputs. -/
theorem drive_zero_is_noop_witness :
    1 - sampleL.retention ^ (0 : ℝ) = 0
      ∧ (sampleL.drive 0).1 = sampleL.current
      ∧ ((sampleL.drive 0).2).current = sampleL.current
      ∧ (sampleR.drive 0).1 = sampleR.current
      ∧ ((sampleR.drive 0).2).current = sampleR.current :=
  drive_zero_is_noop (Translate ℝ) sampleL sampleL slerpConst sampleR rfl norm_one

/-- C6: the smoothing capability satisfies `drive(t, c, 0) = c` and
`drive(t, c, 1) = t`: exactly for the linear variant, and for the
rotational variant under the collaborator's slerp endpoint laws and the
unit-quaternion data invariant. -/
theorem smoothing_endpoints (t c : ℝ)
    (slerp : Quat → Quat → ℝ → Quat) (qt qc : Quat)
    (h0 : slerp qc qt 0 = qc) (h1 : slerp qc qt 1 = qt)
    (hc : ‖qc‖ = 1) (ht : ‖qt‖ = 1) :
    (Translate ℝ).drive t c 0 = c
      ∧ (Translate ℝ).drive t c 1 = t
      ∧ (Rotate slerp).drive qt qc 0 = qc
      ∧ (Rotate slerp).drive qt qc 1 = qt := by
  refine ⟨?_, ?_, ?_, ?_⟩
  · rw [Translate_drive]; ring
  · rw [Translate_drive]; ring
  · rw [Rotate_drive, h0]; exact Quat.normalize_of_norm_one _ hc
  · rw [Rotate_drive, h1]; exact Quat.normalize_of_norm_one _ ht

/-- Witness for C6 at concrete inputs. -/
theorem smoothing_endpoints_witness :
    (Translate ℝ).drive 3 5 0 = 5
      ∧ (Translate ℝ).drive 3 5 1 = 3
      ∧ (Rotate slerpConst).drive 1 1 0 = 1
      ∧ (Rotate slerpConst).drive 1 1 1 = 1 :=
  smoothing_endpoints 3 5 slerpConst 1 1 rfl rfl norm_one norm_one

/-- C7: retention outside `(0,1)` is not validated and behaves
degenerately but well-definedly: `retention = 1` gives `percent = 0` and
a frozen component (the state after `drive` is the original state);
`retention = 0` with `elapsed_seconds > 0` gives `percent = 1` and snaps
`current` to `target` exactly. -/
theorem degenerate_retention
    (c1 : TransformComponent (Translate ℝ)) (d1 : ℝ) (h1 : c1.retention = 1)
    (c0 : TransformComponent (Translate ℝ)) (d0 : ℝ) (h0 : c0.retention = 0)
    (hd0 : 0 < d0) :
    (1 - c1.retention ^ d1 = 0
      ∧ (c1.drive d1).1 = c1.current
      ∧ (c1.drive d1).2 = c1)
    ∧ (1 - c0.retention ^ d0 = 1
      ∧ (c0.drive d0).1 = c0.target
      ∧ ((c0.drive d0).2).current = c0.target) := by
  have e1 : (c1.drive d1).1
      = c1.current + (c1.target - c1.current) * (1 - c1.retention ^ d1) := rfl
  have e0 : (c0.drive d0).1
      = c0.current + (c0.target - c0.current) * (1 - c0.retention ^ d0) := rfl
  have hcur1 : (c1.drive d1).1 = c1.current := by
    rw [e1, h1, Real.one_rpow]; ring
  have hcur0 : (c0.drive d0).1 = c0.target := by
    rw [e0, h0, Real.zero_rpow hd0.ne']; ring
  exact ⟨⟨by rw [h1, Real.one_rpow]; ring, hcur1,
          TransformComponent.ext rfl hcur1 rfl⟩,
         ⟨by rw [h0, Real.zero_rpow hd0.ne']; ring, hcur0, hcur0⟩⟩

/-- Witness for C7 at concrete inputs. -/
theorem degenerate_retention_witness :
    (1 - sampleFrozen.retention ^ (5 : ℝ) = 0
      ∧ (sampleFrozen.drive 5).1 = sampleFrozen.current
      ∧ (sampleFrozen.drive 5).2 = sampleFrozen)
    ∧ (1 - sampleSnap.retention ^ (2 : ℝ) = 1
      ∧ (sampleSnap.drive 2).1 = sampleSnap.target
      ∧ ((sampleSnap.drive 2).2).current = sampleSnap.target) :=
  degenerate_retention sampleFrozen 5 rfl sampleSnap 2 rfl (by norm_num)

/-- C8: for a linear component with retention in `(0,1)` and a fixed
target, driving by `a` and then by `b` yields exactly the state and
value of a single drive by `a + b`, via
`retention ^ (a + b) = retention ^ a * retention ^ b`. -/
theorem drive_substep_composes
    (c : TransformComponent (Translate ℝ)) (a b : ℝ)
    (hr0 : 0 < c.retention) (hr1 : c.retention < 1) :
    (((c.drive a).2).drive b).2 = (c.drive (a + b)).2
      ∧ (((c.drive a).2).drive b).1 = (c.drive (a + b)).1 := by
  have key : (((c.drive a).2).drive b).1 = (c.drive (a + b)).1 := by
    have e1 : (c.drive (a + b)).1
        = c.current + (c.target - c.current) * (1 - c.retention ^ (a + b)) := rfl
    have e2 : (((c.drive a).2).drive b).1
        = ((c.drive a).2).current
            + (((c.drive a).2).target - ((c.drive a).2).current)
              * (1 - ((c.drive a).2).retention ^ b) := rfl
    have e3 : ((c.drive a).2).current
        = c.current + (c.target - c.current) * (1 - c.retention ^ a) := rfl
    have e4 : ((c.drive a).2).target = c.target := rfl
    have e5 : ((c.drive a).2).retention = c.retention := rfl
    rw [e2, e3, e4, e5, e1, Real.rpow_add hr0]
    ring
  exact ⟨TransformComponent.ext rfl key rfl, key⟩

/-- Witness for C8 at concrete inputs. -/
theorem drive_substep_composes_witness :
    ((sampleHalf.drive 1).2.drive 2).2 = (sampleHalf.drive (1 + 2)).2
      ∧ ((sampleHalf.drive 1).2.drive 2).1 = (sampleHalf.drive (1 + 2)).1 :=
  drive_substep_composes sampleHalf 1 2 (by norm_num [sampleHalf])
    (by norm_num [sampleHalf])

/-- C9: the rotational rule is
`new_current = normalize(slerp(current, target, percent))`, and after a
`drive` call the quaternion stored in `current` has unit norm (whenever
the slerp result is nonzero, the only case where normalisation is
defined). -/
theorem rotate_drive_normalizes
    (slerp : Quat → Quat → ℝ → Quat)
    (c : TransformComponent (Rotate slerp)) (d : ℝ)
    (h : slerp c.current c.target (1 - c.retention ^ d) ≠ 0) :
    (c.drive d).1
        = Quat.normalize (slerp c.current c.target (1 - c.retention ^ d))
      ∧ ‖((c.drive d).2).current‖ = 1 := by
  refine ⟨rfl, ?_⟩
  have e : ((c.drive d).2).current
      = Quat.normalize (slerp c.current c.target (1 - c.retention ^ d)) := rfl
  rw [e]
  exact Quat.norm_normalize _ h

/-- Witness for C9 at concrete inputs. -/
theorem rotate_drive_normalizes_witness :
    (sampleR.drive 0).1
        = Quat.normalize
            (slerpConst sampleR.current sampleR.target
              (1 - sampleR.retention ^ (0 : ℝ)))
      ∧ ‖((sampleR.drive 0).2).current‖ = 1 :=
  rotate_drive_normalizes slerpConst sampleR 0 one_ne_zero

end Buttery
